import Mathlib

/-! dnsbrute: the per-target resolution engine

A shallow embedding of `src/dnsbrute.go` (and the message builders of
`src/dnsutils.go`) together with the properties of the result aggregator
(`parseAndAddResult`), the resolver rotation and query step of
`subdomainWorker`, and the zone-transfer probe at the head of `run`.

Conventions of the embedding.

* A Go `string` is a byte sequence.  The program only cuts strings at the
  ASCII bytes `'|'`, tab and `'.'` and compares whole strings, so on UTF-8
  text cutting by character and cutting by byte coincide; a string is a list
  of characters here.
* A `map[string]string` is a partial function from keys to values; reading an
  absent key gives the zero value `""`.
* A run-time panic (index out of range, integer division by zero) is an
  explicit `Except.error`.
* The critical sections guarded by `target.mutex` are atomic steps on the
  target state.  Log output is not part of the state.
* `target.pos` is a Go `int`, taken at its 64-bit width: an `Int` that the
  increment `target.pos++` wraps around from `maxInt` to `minInt`; `%` is Go's
  truncated remainder (`Int.tmod`).
* The package variable `userResolvers` is shared by all targets: `run` takes
  its value at entry and its outcome tells the value it leaves.
-/

set_option linter.unusedVariables false

namespace DnsBrute

/-! ## Data model -/

/-- Go `string`. -/
abbrev GoString := List Char

/-- Go `map[string]string`. -/
abbrev ResultMap := GoString → Option GoString

/-- The empty map, `make(map[string]string)`. -/
def emptyMap : ResultMap := fun _ => none

/-- Map read `m[k]`: the stored value, or the zero value `""` when `k` is absent. -/
def mapGet (m : ResultMap) (k : GoString) : GoString :=
  match m k with
  | some v => v
  | none => []

/-- Map write `m[k] = v`. -/
def mapSet (m : ResultMap) (k v : GoString) : ResultMap :=
  fun x => if x = k then some v else m x

/-- Run-time panics of the Go runtime that the engine can raise. -/
inductive Panic where
  | indexOutOfRange
  | divideByZero
  deriving DecidableEq, Repr

/-- Go index expression `xs[i]` on a slice or a string: panics unless `0 ≤ i < len(xs)`. -/
def index {α : Type} (xs : List α) (i : Int) : Except Panic α :=
  if i < 0 then .error .indexOutOfRange
  else
    match xs[i.toNat]? with
    | some x => .ok x
    | none => .error .indexOutOfRange

/-- Largest value of a Go `int` (64 bits). -/
def maxInt : Int := 9223372036854775807

/-- Smallest value of a Go `int` (64 bits). -/
def minInt : Int := -9223372036854775808

/-- The Go `int` that holds the result of an integer operation whose exact value is `x`:
two's-complement wrap-around into `minInt .. maxInt`. -/
def wrapInt (x : Int) : Int :=
  (x + 9223372036854775808) % 18446744073709551616 - 9223372036854775808

/-- The struct `DNSTarget` (the mutex is represented by the atomicity of the steps). -/
structure DNSTarget where
  name : GoString
  queryType : GoString
  pos : Int
  result : ResultMap

/-- The constant `numWorker`. -/
def numWorker : Nat := 8

/-- Library function `strings.Split(s, sep)` for a one-byte separator: the pieces of `s`
between occurrences of `sep`; `n` occurrences give `n + 1` pieces, so `""` gives `[""]`. -/
def stringsSplit (s : GoString) (sep : Char) : List GoString :=
  match s with
  | [] => [[]]
  | c :: cs =>
    if c = sep then [] :: stringsSplit cs sep
    else
      match stringsSplit cs sep with
      | [] => [[c]]
      | piece :: pieces => (c :: piece) :: pieces

/-! ## `parseAndAddResult` (dnsbrute.go, lines 201-244) -/

/-- The inner loop `for pos, str := range linerec` (lines 222-240), started at position `pos`
with `rest` the fields still to visit.  `none`: the loop ran to its end; `some m`: `break Loop`
was taken with result map `m`. -/
def fieldLoop (full_domain : GoString) (linerec : List GoString) (result : ResultMap) :
    Nat → List GoString → Except Panic (Option ResultMap)
  | _, [] => .ok none
  | pos, str :: rest =>
    if str = "CNAME".toList then
      match index linerec ((pos : Int) + 1) with
      | .error e => .error e
      | .ok cname =>
        match index cname ((cname.length : Int) - 1) with
        | .error e => .error e
        | .ok last =>
          let cname := if last = '.' then cname.take (cname.length - 1) else cname
          let ip := mapGet result cname
          .ok (some (mapSet result full_domain ip))
    else if str = "A".toList then
      match index linerec ((pos : Int) + 1) with
      | .error e => .error e
      | .ok ip => .ok (some (mapSet result full_domain ip))
    else fieldLoop full_domain linerec result (pos + 1) rest

/-- The outer loop `for _, record := range arr` labelled `Loop` (lines 217-241). -/
def recordLoop (full_domain : GoString) (result : ResultMap) :
    List GoString → Except Panic ResultMap
  | [] => .ok result
  | record :: arr =>
    let linerec := stringsSplit record '\t'
    match fieldLoop full_domain linerec result 0 linerec with
    | .error e => .error e
    | .ok (some result') => .ok result'
    | .ok none => recordLoop full_domain result arr

/-- The method `parseAndAddResult(domain, result)`. -/
def parseAndAddResult (target : DNSTarget) (domain result : GoString) : Except Panic DNSTarget :=
  let arr := stringsSplit result '|'
  let full_domain := domain ++ ".".toList ++ target.name
  let ip := mapGet target.result full_domain
  if ip ≠ [] then .ok target
  else
    match recordLoop full_domain target.result arr with
    | .error e => .error e
    | .ok result' => .ok { target with result := result' }

/-! ## The reading of a packed record string used by the specification -/

/-- The fields of one record line, each paired with the field that follows it on the line. -/
def fieldsWithNext (line : List GoString) : List (GoString × Option GoString) :=
  List.zip line (line.tail.map some ++ [none])

/-- A field is a marker when it is literally `A` or `CNAME`. -/
def isMarker (f : GoString) : Bool :=
  f == "A".toList || f == "CNAME".toList

/-- All fields of a packed record string with their successors: lines in order (split on
`'|'`), fields of a line in order (split on tab). -/
def packedFields (P : GoString) : List (GoString × Option GoString) :=
  ((stringsSplit P '|').map (fun line => fieldsWithNext (stringsSplit line '\t'))).flatten

/-- The first marker field of a packed record string, with the field that follows it. -/
def firstMarker (P : GoString) : Option (GoString × Option GoString) :=
  (packedFields P).find? (fun p => isMarker p.1)

/-- A name with one trailing `'.'` removed. -/
def trimDot (c : GoString) : GoString :=
  if c.getLast? = some '.' then c.dropLast else c

/-- What the aggregator does with the first marker `p` of a packed record string. -/
def commitMarker (result : ResultMap) (full_domain : GoString)
    (p : GoString × Option GoString) : Except Panic ResultMap :=
  match p.2 with
  | none => .error .indexOutOfRange
  | some v =>
    if p.1 = "CNAME".toList then
      if v = [] then .error .indexOutOfRange
      else .ok (mapSet result full_domain (mapGet result (trimDot v)))
    else .ok (mapSet result full_domain v)

/-! ## Messages and transport (`dnsutils.go`) -/

/-- Library function `dns.Fqdn`: the name with a trailing dot, added when it has none. -/
def dnsFqdn (s : GoString) : GoString :=
  if s.getLast? = some '.' then s else s ++ ".".toList

/-- Record types and class of the library: `dns.TypeA`, `dns.TypeNS`, `dns.TypeAXFR`,
`dns.TypeANY`, `dns.ClassINET`. -/
def TypeA : Nat := 1

def TypeNS : Nat := 2

def TypeAXFR : Nat := 252

def TypeANY : Nat := 255

def ClassINET : Nat := 1

/-- The struct `dns.Question`. -/
structure Question where
  Name : GoString
  Qtype : Nat
  Qclass : Nat
  deriving DecidableEq

/-- The fields of `dns.Msg` that the program sets or reads.  An answer record is kept as the
text its `String()` method renders, the only way the program looks at it. -/
structure Msg where
  Id : Nat
  Response : Bool
  Opcode : Nat
  Authoritative : Bool
  RecursionDesired : Bool
  RecursionAvailable : Bool
  AuthenticatedData : Bool
  CheckingDisabled : Bool
  Rcode : Nat
  Question : List Question
  Answer : List GoString
  deriving DecidableEq

/-- The function `createDNSMessage`; `id` is the transaction identifier drawn by `dns.Id()`. -/
def createDNSMessage (id : Nat) : Msg :=
  { Id := id
    Response := false
    Opcode := 0
    Authoritative := false
    RecursionDesired := true
    RecursionAvailable := true
    AuthenticatedData := false
    CheckingDisabled := false
    Rcode := 0
    Question := []
    Answer := [] }

/-- The function `CreateAQuery`. -/
def CreateAQuery (id : Nat) (hostname : GoString) : Msg :=
  { createDNSMessage id with Question := [⟨dnsFqdn hostname, TypeA, ClassINET⟩] }

/-- The function `CreateAXFRQuery`. -/
def CreateAXFRQuery (id : Nat) (hostname : GoString) : Msg :=
  { createDNSMessage id with Question := [⟨dnsFqdn hostname, TypeAXFR, ClassINET⟩] }

/-- The transport `SendDNSQuery(client, msg, nameserver)`: a response, or an error (its text).
The round-trip time is never read. -/
abbrev Transport := Msg → GoString → Except GoString Msg

/-- One envelope of a zone transfer (`dns.Envelope`): records and an optional error. -/
structure Envelope where
  RR : List GoString
  Error : Option GoString
  deriving DecidableEq

/-- The zone transfer `t.In(msg, address)`: the envelopes received over the channel, or a
start error. -/
abbrev TransferIn := Msg → GoString → Except GoString (List Envelope)

/-! ## `subdomainWorker` (dnsbrute.go, lines 160-197) -/

/-- The critical section of lines 171-174: `resolver_nb := target.pos % nb_resolvers;
target.pos++`.  Go's `%` truncates toward zero and panics on a zero divisor; the increment
wraps around. -/
def selectResolver (nb_resolvers : Int) (target : DNSTarget) : Except Panic (Int × DNSTarget) :=
  if nb_resolvers = 0 then .error .divideByZero
  else .ok (Int.tmod target.pos nb_resolvers, { target with pos := wrapInt (target.pos + 1) })

/-- The packing of lines 186-189: every answer rendered and followed by `'|'`. -/
def packAnswers (answer : List GoString) : GoString :=
  answer.foldl (fun rrr rr => rrr ++ (rr ++ "|".toList)) []

/-- What one pass of the worker loop did: the target afterwards, the name server the query
was sent to, and the raw answers put on the `results` channel. -/
structure WorkerStep where
  target : DNSTarget
  server : GoString
  emitted : List (GoString × GoString)

/-- One pass of the loop `for domain := range domains` (lines 165-195) of worker `id`.
The argument of `printDebug` on line 177 is evaluated whether or not debugging is on. -/
def subdomainWorkerStep (defaultResolvers userResolvers : List GoString)
    (SendDNSQuery : Transport) (dnsId : GoString → Nat) (id : Nat)
    (target : DNSTarget) (domain : GoString) : Except Panic WorkerStep :=
  let nb_resolvers : Int := defaultResolvers.length
  let full_domain := domain ++ ".".toList ++ target.name
  let msg := CreateAQuery (dnsId full_domain) full_domain
  match selectResolver nb_resolvers target with
  | .error e => .error e
  | .ok (resolver_nb, target) =>
    match index userResolvers resolver_nb with
    | .error e => .error e
    | .ok _ =>
      match index defaultResolvers resolver_nb with
      | .error e => .error e
      | .ok server =>
        match SendDNSQuery msg server with
        | .error _ => .ok { target := target, server := server, emitted := [] }
        | .ok r =>
          if r.Id = msg.Id then
            if r.Answer.length > 0 then
              .ok { target := target, server := server,
                    emitted := [(domain, packAnswers r.Answer)] }
            else
              .ok { target := target, server := server, emitted := [(domain, [])] }
          else .ok { target := target, server := server, emitted := [] }

/-- The worker `id` running over the candidates it receives from the `domains` channel:
the target afterwards and the raw answers it emitted, in order. -/
def subdomainWorker (defaultResolvers userResolvers : List GoString)
    (SendDNSQuery : Transport) (dnsId : GoString → Nat) (id : Nat) :
    List GoString → DNSTarget → Except Panic (DNSTarget × List (GoString × GoString))
  | [], target => .ok (target, [])
  | domain :: domains, target =>
    match subdomainWorkerStep defaultResolvers userResolvers SendDNSQuery dnsId id
        target domain with
    | .error e => .error e
    | .ok step =>
      match subdomainWorker defaultResolvers userResolvers SendDNSQuery dnsId id
          domains step.target with
      | .error e => .error e
      | .ok (target', results) => .ok (target', step.emitted ++ results)

/-- Successive resolver selections on one target, performed by the workers named in
`schedule` in that order (each selection is one critical section): the indices chosen and the
target afterwards. -/
def selections (nb_resolvers : Int) :
    List Nat → DNSTarget → Except Panic (List Int × DNSTarget)
  | [], target => .ok ([], target)
  | _ :: schedule, target =>
    match selectResolver nb_resolvers target with
    | .error e => .error e
    | .ok (resolver_nb, target') =>
      match selections nb_resolvers schedule target' with
      | .error e => .error e
      | .ok (chosen, target'') => .ok (resolver_nb :: chosen, target'')

/-! ## The head of `run` (dnsbrute.go, lines 76-137) -/

/-- The loop `for e := range env` (lines 99-110): the counters `record` and `envelope`. -/
def countEnvelopes : List Envelope → Nat → Nat → Nat × Nat
  | [], record, envelope => (record, envelope)
  | e :: env, record, envelope => countEnvelopes env (record + e.RR.length) (envelope + 1)

/-- The loop `for _, server := range authoritativeServers` (lines 92-116).  `some (record,
envelope)`: the `return` of line 114 was taken; `none`: the loop ran to its end. -/
def axfrLoop (defaultResolvers : List GoString) (In : TransferIn) (dnsId : GoString → Nat) :
    List GoString → Except Panic (Option (Nat × Nat))
  | [] => .ok none
  | server :: servers =>
    let msg := CreateAXFRQuery (dnsId server) server
    match index defaultResolvers 0 with
    | .error e => .error e
    | .ok address =>
      match In msg address with
      | .error _ => axfrLoop defaultResolvers In dnsId servers
      | .ok env =>
        let counts := countEnvelopes env 0 0
        if counts.1 ≠ 0 then .ok (some counts)
        else axfrLoop defaultResolvers In dnsId servers

/-- The loop of lines 140-146: `run` receives `n = len(*subdomains)` raw answers from the
`results` channel and hands the non-empty ones to `parseAndAddResult`.  `some handed`: the
loop finished; `none`: the workers emitted fewer than `n` answers and the receive blocks. -/
def receiveResults : Nat → List (GoString × GoString) → Option (List (GoString × GoString))
  | 0, _ => some []
  | _ + 1, [] => none
  | n + 1, res :: results =>
    match receiveResults n results with
    | none => none
    | some handed => if res.2 ≠ [] then some (res :: handed) else some handed

/-- How `run` leaves its first part: by the `return` of line 114 after a zone transfer, or
into the brute-force phase with the shared `userResolvers`, the number of worker goroutines
started (lines 126-128) and the candidates sent on the `jobs` channel (lines 131-137). -/
inductive RunOutcome where
  | zoneTransferred (record envelope : Nat)
  | bruteForce (userResolvers : List GoString) (workers : Nat) (jobs : List GoString)
  deriving DecidableEq

/-- Number of worker goroutines `run` started. -/
def RunOutcome.workersStarted : RunOutcome → Nat
  | .zoneTransferred _ _ => 0
  | .bruteForce _ workers _ => workers

/-- Candidates `run` dispatched to the workers. -/
def RunOutcome.dispatched : RunOutcome → List GoString
  | .zoneTransferred _ _ => []
  | .bruteForce _ _ jobs => jobs

/-- The method `run` up to the dispatch of the candidates.  `authoritativeServers` is what
`target.getAuthoritative()` returned on line 85; it is called only when no resolver was
supplied by the user, and it sends its query to `(*defaultResolvers)[0]` (line 299). -/
def run (subdomains defaultResolvers userResolvers authoritativeServers : List GoString)
    (In : TransferIn) (dnsId : GoString → Nat) : Except Panic RunOutcome :=
  if userResolvers.length = 0 then
    match index defaultResolvers 0 with
    | .error e => .error e
    | .ok _ =>
      match axfrLoop defaultResolvers In dnsId authoritativeServers with
      | .error e => .error e
      | .ok (some (record, envelope)) => .ok (.zoneTransferred record envelope)
      | .ok none => .ok (.bruteForce authoritativeServers numWorker subdomains)
  else .ok (.bruteForce userResolvers numWorker subdomains)

/-- The value of the package variable `userResolvers` when `run` has left its first part:
line 118 overwrites it on the way to brute forcing, the `return` of line 114 leaves it. -/
def RunOutcome.userResolversAfter (userResolvers : List GoString) : RunOutcome → List GoString
  | .zoneTransferred _ _ => userResolvers
  | .bruteForce userResolvers' _ _ => userResolvers'

/-- The targets of `runDnsBrute` (lines 407-415), each given by the authoritative servers
`getAuthoritative` finds for it, in a schedule of the goroutines in which the `run` of one
target has passed line 118 before the `run` of the next target reads `userResolvers` on
line 83.  All targets share the package variable `userResolvers`. -/
def runTargets (subdomains defaultResolvers : List GoString) (In : TransferIn)
    (dnsId : GoString → Nat) : List GoString → List (List GoString) →
    Except Panic (List RunOutcome)
  | _, [] => .ok []
  | userResolvers, authoritativeServers :: targets =>
    match run subdomains defaultResolvers userResolvers authoritativeServers In dnsId with
    | .error e => .error e
    | .ok out =>
      match runTargets subdomains defaultResolvers In dnsId
          (out.userResolversAfter userResolvers) targets with
      | .error e => .error e
      | .ok outs => .ok (out :: outs)

/-- The total record count of a transfer: the record counts of its envelopes summed. -/
def totalRecords (env : List Envelope) : Nat :=
  (env.map (fun e => e.RR.length)).sum

/-! ## Theorems -/

theorem fieldsWithNext_nil : fieldsWithNext [] = [] := rfl

theorem fieldsWithNext_cons (f : GoString) (rest : List GoString) :
    fieldsWithNext (f :: rest) = (f, rest.head?) :: fieldsWithNext rest := by
  cases rest <;> simp [fieldsWithNext]

theorem index_ofNat {α : Type} (xs : List α) (i : Nat) :
    index xs (i : Int) = match xs[i]? with
      | some x => .ok x
      | none => .error .indexOutOfRange := by
  unfold index
  have h : ¬ ((i : Int) < 0) := by omega
  simp [h]

theorem index_succ_of_drop (linerec : List GoString) (pos : Nat) (str : GoString)
    (rest : List GoString) (h : linerec.drop pos = str :: rest) :
    index linerec ((pos : Int) + 1) = match rest.head? with
      | some x => .ok x
      | none => .error .indexOutOfRange := by
  have e : ((pos : Int) + 1) = ((pos + 1 : Nat) : Int) := by push_cast; rfl
  rw [e, index_ofNat]
  have h1 : linerec[pos + 1]? = (linerec.drop pos)[1]? := by
    rw [List.getElem?_drop]
  rw [h1, h]
  cases rest <;> simp

theorem index_last (s : GoString) (h : s ≠ []) :
    index s ((s.length : Int) - 1) = .ok (s.getLast h) := by
  have hl : 0 < s.length := List.length_pos.mpr h
  have e : ((s.length : Int) - 1) = ((s.length - 1 : Nat) : Int) := by omega
  rw [e, index_ofNat]
  have h2 : s[s.length - 1]? = some (s.getLast h) := by
    rw [List.getLast_eq_getElem]
    exact List.getElem?_eq_getElem _
  rw [h2]

theorem trimDot_eq (c : GoString) (h : c ≠ []) :
    (if c.getLast h = '.' then c.take (c.length - 1) else c) = trimDot c := by
  unfold trimDot
  rw [List.getLast?_eq_getLast _ h, List.dropLast_eq_take]
  simp

/-- The inner loop finds the first marker among the fields still to visit and commits it. -/
theorem fieldLoop_eq (full_domain : GoString) (linerec : List GoString) (result : ResultMap) :
    ∀ (rest : List GoString) (pos : Nat), linerec.drop pos = rest →
      fieldLoop full_domain linerec result pos rest =
        match (fieldsWithNext rest).find? (fun p => isMarker p.1) with
        | none => .ok none
        | some p =>
          match commitMarker result full_domain p with
          | .error e => .error e
          | .ok m => .ok (some m) := by
  intro rest
  induction rest with
  | nil => intro pos _; simp [fieldLoop, fieldsWithNext_nil]
  | cons str rest ih =>
    intro pos h
    have hidx := index_succ_of_drop linerec pos str rest h
    have hnext : linerec.drop (pos + 1) = rest := by
      have := congrArg (List.drop 1) h
      simpa [List.drop_drop, Nat.add_comm] using this
    rw [fieldsWithNext_cons]
    unfold fieldLoop
    by_cases hc : str = "CNAME".toList
    · have hm : isMarker str = true := by subst hc; decide
      simp only [hc, if_true] at hidx ⊢
      rw [List.find?_cons_of_pos _ (by simpa [hc] using hm), hidx]
      cases hr : rest.head? with
      | none => simp [commitMarker]
      | some v =>
        by_cases hv : v = []
        · subst hv
          simp [commitMarker, index]
        · simp only [commitMarker, hv, if_true, if_false, index_last v hv]
          simp only [trimDot_eq v hv]
    · by_cases ha : str = "A".toList
      · have hm : isMarker str = true := by subst ha; decide
        have hne : ¬ ("A".toList = "CNAME".toList) := by decide
        simp only [ha, hne, if_true, if_false] at hidx ⊢
        rw [List.find?_cons_of_pos _ (by simpa [ha] using hm), hidx]
        cases hr : rest.head? with
        | none => simp [commitMarker]
        | some v => simp [commitMarker, hne]
      · have hm : isMarker str = false := by
          simp only [isMarker, Bool.or_eq_false_iff, beq_eq_false_iff_ne, ne_eq]
          exact ⟨ha, hc⟩
        simp only [hc, ha, if_false]
        rw [List.find?_cons_of_neg _ (by simp [hm])]
        exact ih (pos + 1) hnext

/-- The labelled loop commits the first marker of the record lines, or leaves the map as it is
when no line has one. -/
theorem recordLoop_eq (full_domain : GoString) (result : ResultMap) (arr : List GoString) :
    recordLoop full_domain result arr =
      match ((arr.map (fun line => fieldsWithNext (stringsSplit line '\t'))).flatten).find?
          (fun p => isMarker p.1) with
      | none => .ok result
      | some p => commitMarker result full_domain p := by
  induction arr with
  | nil => simp [recordLoop]
  | cons record arr ih =>
    unfold recordLoop
    simp only [List.map_cons, List.flatten_cons, List.find?_append]
    rw [fieldLoop_eq full_domain _ result _ 0 (by simp)]
    cases hf : (fieldsWithNext (stringsSplit record '\t')).find? (fun p => isMarker p.1) with
    | none => simpa using ih
    | some p =>
      cases hcm : commitMarker result full_domain p with
      | error e => simp [hcm]
      | ok m => simp [hcm]

/-- The aggregator in closed form: a no-op on a key that holds a non-empty value, otherwise the
commit of the first marker of the packed record string. -/
theorem parseAndAddResult_eq (target : DNSTarget) (domain P : GoString) :
    parseAndAddResult target domain P =
      if mapGet target.result (domain ++ ".".toList ++ target.name) ≠ [] then .ok target
      else
        match firstMarker P with
        | none => .ok target
        | some p =>
          match commitMarker target.result (domain ++ ".".toList ++ target.name) p with
          | .error e => .error e
          | .ok m => .ok { target with result := m } := by
  unfold parseAndAddResult
  simp only [recordLoop_eq, firstMarker, packedFields]
  split
  · rfl
  · cases (List.find? (fun p => isMarker p.1)
        (List.map (fun line => fieldsWithNext (stringsSplit line '\t'))
          (stringsSplit P '|')).flatten) with
    | none => rfl
    | some p => rfl

theorem mapGet_mapSet_self (m : ResultMap) (k v : GoString) : mapGet (mapSet m k v) k = v := by
  simp [mapGet, mapSet]

theorem mapGet_mapSet_of_ne (m : ResultMap) (k v x : GoString) (h : x ≠ k) :
    mapGet (mapSet m k v) x = mapGet m x := by
  simp [mapGet, mapSet, h]

theorem mapSet_mapSet_self (m : ResultMap) (k v : GoString) :
    mapSet (mapSet m k v) k v = mapSet m k v := by
  funext x
  by_cases h : x = k <;> simp [mapSet, h]

theorem mapGet_eq_nil_of_absent_or_empty (m : ResultMap) (k : GoString)
    (h : m k = none ∨ m k = some []) : mapGet m k = [] := by
  rcases h with h | h <;> simp [mapGet, h]

theorem stringsSplit_ne_nil (s : GoString) (sep : Char) : stringsSplit s sep ≠ [] := by
  induction s with
  | nil => simp [stringsSplit]
  | cons c cs ih =>
    unfold stringsSplit
    split
    · simp
    · split <;> simp

theorem stringsSplit_cons (c : Char) (cs : GoString) (sep : Char) :
    stringsSplit (c :: cs) sep =
      if c = sep then [] :: stringsSplit cs sep
      else
        match stringsSplit cs sep with
        | [] => [[c]]
        | piece :: pieces => (c :: piece) :: pieces := by
  rw [stringsSplit]

/-- Splitting a string that continues after a separator: the pieces of the front, then the
pieces of the continuation. -/
theorem stringsSplit_append (s rest : GoString) (sep : Char) :
    stringsSplit (s ++ sep :: rest) sep = stringsSplit s sep ++ stringsSplit rest sep := by
  induction s with
  | nil => rw [List.nil_append, stringsSplit_cons]; simp [stringsSplit]
  | cons c cs ih =>
    rw [List.cons_append, stringsSplit_cons, ih, stringsSplit_cons]
    by_cases hc : c = sep
    · simp [hc]
    · simp only [hc, if_false]
      cases hs : stringsSplit cs sep with
      | nil => exact absurd hs (stringsSplit_ne_nil cs sep)
      | cons piece pieces => simp

/-- Lines appended after a packed record string that already has a marker do not change its
first marker. -/
theorem firstMarker_append (P rest : GoString) (p : GoString × Option GoString)
    (h : firstMarker P = some p) : firstMarker (P ++ '|' :: rest) = some p := by
  unfold firstMarker packedFields at h ⊢
  rw [stringsSplit_append, List.map_append, List.flatten_append, List.find?_append, h]
  rfl

/-! ### Result aggregator -/

/-- C1 (direct resolution): when the key `L.T` is absent from the result map or holds the
empty string, and the first marker field of the packed record string `P` (lines in order,
fields in order) is `A` followed by a field `v`, then `parseAndAddResult(L, P)` completes and
yields the map whose value at `L.T` is `v`; every other key is as before. -/
theorem parseAndAddResult_direct (target : DNSTarget) (L P v : GoString)
    (hm : target.result (L ++ ".".toList ++ target.name) = none
      ∨ target.result (L ++ ".".toList ++ target.name) = some [])
    (hP : firstMarker P = some ("A".toList, some v)) :
    parseAndAddResult target L P = .ok { target with
        result := mapSet target.result (L ++ ".".toList ++ target.name) v }
      ∧ mapGet (mapSet target.result (L ++ ".".toList ++ target.name) v)
          (L ++ ".".toList ++ target.name) = v
      ∧ ∀ k : GoString, k ≠ L ++ ".".toList ++ target.name →
          mapSet target.result (L ++ ".".toList ++ target.name) v k = target.result k := by
  have h0 := mapGet_eq_nil_of_absent_or_empty _ _ hm
  have hne : ¬ ("A".toList = "CNAME".toList) := by decide
  refine ⟨?_, mapGet_mapSet_self _ _ _, ?_⟩
  · rw [parseAndAddResult_eq, if_neg (not_not.mpr h0), hP]
    simp only [commitMarker, hne, if_false]
  · intro k hk
    unfold mapSet
    rw [if_neg hk]

/-- Witness of C1: target `example.com`, candidate `www`, one address record: the entry for
`www.example.com` is `93.184.216.34`. -/
theorem parseAndAddResult_direct_witness :
    parseAndAddResult ⟨"example.com".toList, "A".toList, 0, emptyMap⟩ "www".toList
        "www.example.com.\t300\tIN\tA\t93.184.216.34".toList
      = .ok ⟨"example.com".toList, "A".toList, 0,
          mapSet emptyMap "www.example.com".toList "93.184.216.34".toList⟩
    ∧ mapGet (mapSet emptyMap "www.example.com".toList "93.184.216.34".toList)
        "www.example.com".toList = "93.184.216.34".toList :=
  ⟨(parseAndAddResult_direct ⟨"example.com".toList, "A".toList, 0, emptyMap⟩ "www".toList
      "www.example.com.\t300\tIN\tA\t93.184.216.34".toList "93.184.216.34".toList
      (Or.inl rfl) (by decide)).1,
   (parseAndAddResult_direct ⟨"example.com".toList, "A".toList, 0, emptyMap⟩ "www".toList
      "www.example.com.\t300\tIN\tA\t93.184.216.34".toList "93.184.216.34".toList
      (Or.inl rfl) (by decide)).2.1⟩

/-- C2 (alias resolution): when the key `L.T` is absent or empty in the result map `m` and the
first marker field of `P` is `CNAME` followed by a non-empty field `c`, then
`parseAndAddResult(L, P)` completes and stores under `L.T` the value `m` holds for `c` with one
trailing dot removed (the empty string when that name is not in `m`); lines that come after
`P` are not consulted (any continuation `P|rest` gives the same map); and when the aliased
name is in `m` with value `ip`, the candidate gets `ip`. -/
theorem parseAndAddResult_alias (target : DNSTarget) (L P c : GoString)
    (hm : target.result (L ++ ".".toList ++ target.name) = none
      ∨ target.result (L ++ ".".toList ++ target.name) = some [])
    (hP : firstMarker P = some ("CNAME".toList, some c)) (hc : c ≠ []) :
    parseAndAddResult target L P = .ok { target with
        result := mapSet target.result (L ++ ".".toList ++ target.name)
          (mapGet target.result (trimDot c)) }
      ∧ (∀ rest : GoString, parseAndAddResult target L (P ++ '|' :: rest)
          = parseAndAddResult target L P)
      ∧ mapGet (mapSet target.result (L ++ ".".toList ++ target.name)
          (mapGet target.result (trimDot c))) (L ++ ".".toList ++ target.name)
          = (match target.result (trimDot c) with
             | some ip => ip
             | none => [])
      ∧ (∀ ip : GoString, target.result (trimDot c) = some ip →
          mapSet target.result (L ++ ".".toList ++ target.name)
            (mapGet target.result (trimDot c)) (L ++ ".".toList ++ target.name) = some ip) := by
  have h0 := mapGet_eq_nil_of_absent_or_empty _ _ hm
  have key : ∀ Q : GoString, firstMarker Q = some ("CNAME".toList, some c) →
      parseAndAddResult target L Q = .ok { target with
        result := mapSet target.result (L ++ ".".toList ++ target.name)
          (mapGet target.result (trimDot c)) } := by
    intro Q hQ
    rw [parseAndAddResult_eq, if_neg (not_not.mpr h0), hQ]
    simp only [commitMarker, hc, if_true, if_false]
  refine ⟨key P hP, ?_, ?_, ?_⟩
  · intro rest
    rw [key P hP, key _ (firstMarker_append P rest _ hP)]
  · rw [mapGet_mapSet_self]
    rfl
  · intro ip hip
    simp [mapSet, mapGet, hip]

/-- Witness of C2: the alias target `web.example.com` is already resolved to `1.2.3.4`. -/
theorem parseAndAddResult_alias_witness :
    parseAndAddResult
        ⟨"example.com".toList, "A".toList, 0,
          mapSet emptyMap "web.example.com".toList "1.2.3.4".toList⟩
        "www".toList "www.example.com.\t300\tIN\tCNAME\tweb.example.com.".toList
      = .ok ⟨"example.com".toList, "A".toList, 0,
              mapSet (mapSet emptyMap "web.example.com".toList "1.2.3.4".toList)
                "www.example.com".toList "1.2.3.4".toList⟩ :=
  (parseAndAddResult_alias
    ⟨"example.com".toList, "A".toList, 0,
      mapSet emptyMap "web.example.com".toList "1.2.3.4".toList⟩
    "www".toList "www.example.com.\t300\tIN\tCNAME\tweb.example.com.".toList
    "web.example.com.".toList (Or.inl rfl) (by decide) (by decide)).1

/-- C3 (first writer wins): when the key `L.T` holds a non-empty value, `parseAndAddResult(L,
P)` returns, whatever `P` is, with the target (its result map included) exactly as it was. -/
theorem parseAndAddResult_first_writer_wins (target : DNSTarget) (L P v : GoString)
    (hv : target.result (L ++ ".".toList ++ target.name) = some v) (hne : v ≠ []) :
    parseAndAddResult target L P = .ok target := by
  have h0 : mapGet target.result (L ++ ".".toList ++ target.name) ≠ [] := by
    unfold mapGet
    rw [hv]
    exact hne
  rw [parseAndAddResult_eq, if_pos h0]

/-- Witness of C3: `www.example.com` already holds `1.2.3.4`; a malformed line changes
nothing. -/
theorem parseAndAddResult_first_writer_wins_witness :
    parseAndAddResult
        ⟨"example.com".toList, "A".toList, 0,
          mapSet emptyMap "www.example.com".toList "1.2.3.4".toList⟩
        "www".toList "www.example.com.\t300\tIN\tA".toList
      = .ok ⟨"example.com".toList, "A".toList, 0,
          mapSet emptyMap "www.example.com".toList "1.2.3.4".toList⟩ :=
  parseAndAddResult_first_writer_wins
    ⟨"example.com".toList, "A".toList, 0,
      mapSet emptyMap "www.example.com".toList "1.2.3.4".toList⟩
    "www".toList "www.example.com.\t300\tIN\tA".toList "1.2.3.4".toList
    (by decide) (by decide)

/-- A commit stores some value under the key and changes nothing else. -/
theorem commitMarker_ok (result : ResultMap) (full_domain : GoString)
    (p : GoString × Option GoString) (m : ResultMap)
    (h : commitMarker result full_domain p = .ok m) :
    ∃ v, p.2 = some v ∧
      ((p.1 = "CNAME".toList ∧ v ≠ [] ∧ m = mapSet result full_domain (mapGet result (trimDot v)))
        ∨ (p.1 ≠ "CNAME".toList ∧ m = mapSet result full_domain v)) := by
  unfold commitMarker at h
  cases hp : p.2 with
  | none => rw [hp] at h; cases h
  | some v =>
    rw [hp] at h
    refine ⟨v, rfl, ?_⟩
    by_cases hc : p.1 = "CNAME".toList
    · by_cases hv : v = []
      · simp [hc, hv] at h
      · simp only [hc, hv, if_true, if_false] at h
        exact Or.inl ⟨hc, hv, (Except.ok.inj h).symm⟩
    · simp only [hc, if_false] at h
      exact Or.inr ⟨hc, (Except.ok.inj h).symm⟩

/-- Committing the same marker a second time, on the map the first commit produced with an
empty value, gives that map again. -/
theorem commitMarker_again (result : ResultMap) (full_domain : GoString)
    (p : GoString × Option GoString) (m : ResultMap)
    (h : commitMarker result full_domain p = .ok m) (he : mapGet m full_domain = []) :
    commitMarker m full_domain p = .ok m := by
  obtain ⟨v, hp, hcase⟩ := commitMarker_ok result full_domain p m h
  unfold commitMarker
  rw [hp]
  rcases hcase with ⟨hc, hv, hm⟩ | ⟨hc, hm⟩
  · simp only [hc, hv, if_true, if_false]
    have hval : mapGet result (trimDot v) = [] := by
      rw [hm, mapGet_mapSet_self] at he
      exact he
    have h2 : mapGet m (trimDot v) = [] := by
      by_cases hk : trimDot v = full_domain
      · rw [hk, hm, mapGet_mapSet_self]
        exact hval
      · rw [hm, mapGet_mapSet_of_ne _ _ _ _ hk]
        exact hval
    rw [h2]
    rw [hval] at hm
    rw [hm, mapSet_mapSet_self]
  · simp only [hc, if_false]
    rw [hm, mapSet_mapSet_self]

/-- C4 (idempotence of commit): whenever `parseAndAddResult(L, P)` completes on a target, running
it once more with the same `L` and `P` on the target it produced completes and leaves that
target, and so its result map, unchanged. -/
theorem parseAndAddResult_idempotent (target target' : DNSTarget) (L P : GoString)
    (h : parseAndAddResult target L P = .ok target') :
    parseAndAddResult target' L P = .ok target' := by
  rw [parseAndAddResult_eq] at h
  by_cases h0 : mapGet target.result (L ++ ".".toList ++ target.name) ≠ []
  · rw [if_pos h0] at h
    have ht : target' = target := (Except.ok.inj h).symm
    rw [ht, parseAndAddResult_eq, if_pos h0]
  · rw [if_neg h0] at h
    cases hf : firstMarker P with
    | none =>
      rw [hf] at h
      have ht : target' = target := (Except.ok.inj h).symm
      rw [ht, parseAndAddResult_eq, if_neg h0, hf]
    | some p =>
      rw [hf] at h
      dsimp only at h
      cases hcm : commitMarker target.result (L ++ ".".toList ++ target.name) p with
      | error e => rw [hcm] at h; cases h
      | ok m =>
        rw [hcm] at h
        have ht : target' = { target with result := m } := (Except.ok.inj h).symm
        rw [ht, parseAndAddResult_eq]
        by_cases h1 : mapGet m (L ++ ".".toList ++ target.name) ≠ []
        · rw [if_pos h1]
        · rw [if_neg h1, hf]
          dsimp only
          rw [commitMarker_again _ _ p m hcm (not_not.mp h1)]

/-- Witness of C4: the first run stores the empty value for an alias whose target is not yet
resolved; the second run leaves the map as the first run left it. -/
theorem parseAndAddResult_idempotent_witness :
    parseAndAddResult ⟨"example.com".toList, "A".toList, 0, emptyMap⟩ "www".toList
        "www.example.com.\t300\tIN\tCNAME\tweb.example.com.|".toList
      = .ok ⟨"example.com".toList, "A".toList, 0,
          mapSet emptyMap "www.example.com".toList []⟩
    ∧ parseAndAddResult
        ⟨"example.com".toList, "A".toList, 0, mapSet emptyMap "www.example.com".toList []⟩
        "www".toList "www.example.com.\t300\tIN\tCNAME\tweb.example.com.|".toList
      = .ok ⟨"example.com".toList, "A".toList, 0,
          mapSet emptyMap "www.example.com".toList []⟩ :=
  ⟨rfl, parseAndAddResult_idempotent ⟨"example.com".toList, "A".toList, 0, emptyMap⟩ _
    "www".toList "www.example.com.\t300\tIN\tCNAME\tweb.example.com.|".toList rfl⟩

/-- C8 (failing inputs): on a target with an empty result map, a record line whose `CNAME`
marker is followed by the empty field, and a record line whose `A` marker is the last field,
both make `parseAndAddResult` panic with an index out of range; no value is stored. -/
theorem parseAndAddResult_panics_on_malformed_line :
    parseAndAddResult ⟨"example.com".toList, "A".toList, 0, emptyMap⟩ "www".toList
        "www.example.com.\t300\tIN\tCNAME\t|".toList = .error .indexOutOfRange
    ∧ parseAndAddResult ⟨"example.com".toList, "A".toList, 0, emptyMap⟩ "www".toList
        "www.example.com.\t300\tIN\tA".toList = .error .indexOutOfRange
    ∧ parseAndAddResult ⟨"example.com".toList, "A".toList, 0, emptyMap⟩ "www".toList
        "www.example.com.\t300\tIN\tCNAME".toList = .error .indexOutOfRange :=
  ⟨rfl, rfl, rfl⟩

/-! ### Resolver rotation -/

theorem wrapInt_of_range (x : Int) (hlo : minInt ≤ x) (hhi : x ≤ maxInt) : wrapInt x = x := by
  unfold wrapInt
  unfold minInt at hlo
  unfold maxInt at hhi
  omega

theorem selectResolver_of_nonneg (target : DNSTarget) (n : Nat) (hn : 1 ≤ n)
    (hp : 0 ≤ target.pos) :
    selectResolver (n : Int) target
      = .ok (target.pos % (n : Int), { target with pos := wrapInt (target.pos + 1) }) := by
  have h0 : ¬ ((n : Int) = 0) := by omega
  unfold selectResolver
  rw [if_neg h0, Int.tmod_eq_emod hp (by omega)]

theorem selectResolver_of_range (target : DNSTarget) (n : Nat) (hn : 1 ≤ n)
    (hp : 0 ≤ target.pos) (hmax : target.pos < maxInt) :
    selectResolver (n : Int) target
      = .ok (target.pos % (n : Int), { target with pos := target.pos + 1 }) := by
  rw [selectResolver_of_nonneg target n hn hp,
    wrapInt_of_range (target.pos + 1) (by unfold minInt; omega) (by omega)]

/-- Successive selections started at cursor `p`, as long as the cursor stays a Go `int`: the
indices `p mod n`, `(p+1) mod n`, ... and the cursor advanced by the number of selections,
whoever performs them. -/
theorem selections_from (n : Nat) (hn : 1 ≤ n) (schedule : List Nat) :
    ∀ (target : DNSTarget) (p : Nat), target.pos = (p : Int) →
      ((p + schedule.length : Nat) : Int) ≤ maxInt →
      selections (n : Int) schedule target
        = .ok ((List.range schedule.length).map (fun i => (((p + i) % n : Nat) : Int)),
            { target with pos := ((p + schedule.length : Nat) : Int) }) := by
  induction schedule with
  | nil =>
    intro target p hp _
    simp only [selections, List.length_nil, List.range_zero, List.map_nil, Nat.add_zero]
    rw [← hp]
  | cons w schedule ih =>
    intro target p hp hmax
    rw [List.length_cons] at hmax
    unfold selections
    rw [selectResolver_of_range target n hn (by omega) (by push_cast at hmax; omega)]
    dsimp only
    rw [ih { target with pos := target.pos + 1 } (p + 1) (by simp [hp])
      (by push_cast at hmax ⊢; omega)]
    dsimp only
    rw [List.length_cons, List.range_succ_eq_map, List.map_cons, List.map_map]
    have e1 : target.pos % (n : Int) = (((p + 0) % n : Nat) : Int) := by
      rw [hp, Nat.add_zero, Int.natCast_mod]
    have e2 : ((fun i => (((p + i) % n : Nat) : Int)) ∘ Nat.succ)
        = (fun i => (((p + 1 + i) % n : Nat) : Int)) := by
      funext i
      simp only [Function.comp, Nat.succ_eq_add_one]
      congr 2
      omega
    have e3 : p + 1 + schedule.length = p + (schedule.length + 1) := by omega
    rw [e1, e2, e3]

/-- C6 as amended (round-robin rotation): for every cursor value `p` with `0 ≤ p < maxInt` and
every resolver-list length `n ≥ 1`, one resolver selection yields the index `p mod n`, which is
a valid index below `n`, and leaves the cursor at `p + 1`; and `k ≤ maxInt` successive
selections from cursor `0` yield `0 mod n, 1 mod n, ..., (k-1) mod n` in that order and end
with cursor `k`, whichever workers perform them (for every schedule of `k` worker ids). -/
theorem selectResolver_round_robin (target : DNSTarget) (p : Int) (n : Nat)
    (hp : 0 ≤ p) (hmax : p < maxInt) (hn : 1 ≤ n) :
    selectResolver (n : Int) { target with pos := p }
        = .ok (p % (n : Int), { target with pos := p + 1 })
      ∧ 0 ≤ p % (n : Int) ∧ p % (n : Int) < (n : Int)
      ∧ ∀ (k : Nat) (schedule : List Nat), schedule.length = k → (k : Int) ≤ maxInt →
          selections (n : Int) schedule { target with pos := 0 }
            = .ok ((List.range k).map (fun i => ((i % n : Nat) : Int)),
                { target with pos := (k : Int) }) := by
  refine ⟨selectResolver_of_range { target with pos := p } n hn hp hmax,
    Int.emod_nonneg p (by omega), Int.emod_lt_of_pos p (by omega), ?_⟩
  intro k schedule hk hkmax
  have h := selections_from n hn schedule { target with pos := 0 } 0 rfl
    (by rw [Nat.zero_add, hk]; exact hkmax)
  rw [hk] at h
  simpa using h

/-- Witness of C6: cursor `5` on a list of `3` resolvers gives index `2` and cursor `6`; four
selections from cursor `0`, made by workers `3, 0, 3, 7`, give `0, 1, 2, 0` and cursor `4`. -/
theorem selectResolver_round_robin_witness :
    selectResolver 3 ⟨"example.com".toList, "A".toList, 5, emptyMap⟩
        = .ok (2, ⟨"example.com".toList, "A".toList, 6, emptyMap⟩)
      ∧ selections 3 [3, 0, 3, 7] ⟨"example.com".toList, "A".toList, 0, emptyMap⟩
        = .ok ([0, 1, 2, 0], ⟨"example.com".toList, "A".toList, 4, emptyMap⟩) :=
  ⟨(selectResolver_round_robin ⟨"example.com".toList, "A".toList, 0, emptyMap⟩ 5 3
      (by decide) (by decide) (by decide)).1,
   (selectResolver_round_robin ⟨"example.com".toList, "A".toList, 0, emptyMap⟩ 5 3
      (by decide) (by decide) (by decide)).2.2.2 4 [3, 0, 3, 7] rfl (by decide)⟩

/-- Counterexample to C6 as stated: at the cursor value `p = maxInt = 9223372036854775807`,
which is `≥ 0`, on a list of `3` resolvers, the selection yields the index `p mod 3 = 1` but
leaves the cursor at `minInt = -9223372036854775808`, not at `p + 1`; so the statement
"for every cursor value `p ≥ 0` and every `n ≥ 1` the selection leaves the cursor at `p + 1`"
is false of the code. -/
theorem selectResolver_round_robin_fails_at_maxInt :
    selectResolver 3 ⟨"example.com".toList, "A".toList, 9223372036854775807, emptyMap⟩
        = .ok (1, ⟨"example.com".toList, "A".toList, -9223372036854775808, emptyMap⟩)
      ∧ ¬ (∀ (target : DNSTarget) (p : Int) (n : Nat), 0 ≤ p → p ≤ maxInt → 1 ≤ n →
            selectResolver (n : Int) { target with pos := p }
              = .ok (p % (n : Int), { target with pos := p + 1 })) := by
  have heval : selectResolver 3
      ⟨"example.com".toList, "A".toList, 9223372036854775807, emptyMap⟩
      = .ok (1, ⟨"example.com".toList, "A".toList, -9223372036854775808, emptyMap⟩) := rfl
  refine ⟨heval, ?_⟩
  intro hall
  have h := hall ⟨"example.com".toList, "A".toList, 0, emptyMap⟩ 9223372036854775807 3
    (by decide) (by decide) (by decide)
  have h2 : selectResolver ((3 : Nat) : Int)
      { (⟨"example.com".toList, "A".toList, 0, emptyMap⟩ : DNSTarget) with
        pos := 9223372036854775807 }
      = .ok (1, ⟨"example.com".toList, "A".toList, -9223372036854775808, emptyMap⟩) := heval
  rw [h2] at h
  have h3 := congrArg (fun t : Int × DNSTarget => t.2.pos) (Except.ok.inj h)
  simp only at h3
  exact absurd h3 (by decide)

/-! ### Zone-transfer probe -/

/-- The counting loop adds the record counts of the envelopes, whatever their `Error`. -/
theorem countEnvelopes_eq (env : List Envelope) :
    ∀ record envelope : Nat,
      countEnvelopes env record envelope = (record + totalRecords env, envelope + env.length) := by
  induction env with
  | nil => intro record envelope; simp [countEnvelopes, totalRecords]
  | cons e env ih =>
    intro record envelope
    unfold countEnvelopes
    rw [ih]
    simp only [totalRecords, List.map_cons, List.sum_cons, List.length_cons, Prod.mk.injEq]
    constructor <;> omega

/-- The probe loop over the authoritative servers: it never panics when a default resolver
exists, it returns early exactly when some server's transfer starts and carries a record, and
then with the counts of the first such server in list order. -/
theorem axfrLoop_spec (r0 : GoString) (rs : List GoString) (In : TransferIn)
    (dnsId : GoString → Nat) (servers : List GoString) :
    ∃ r, axfrLoop (r0 :: rs) In dnsId servers = .ok r
      ∧ (r ≠ none ↔ ∃ server ∈ servers, ∃ env,
          In (CreateAXFRQuery (dnsId server) server) r0 = .ok env ∧ totalRecords env ≠ 0)
      ∧ (∀ (before after : List GoString) (server : GoString) (env : List Envelope),
          servers = before ++ server :: after →
          (∀ s ∈ before, ∀ env', In (CreateAXFRQuery (dnsId s) s) r0 = .ok env' →
            totalRecords env' = 0) →
          In (CreateAXFRQuery (dnsId server) server) r0 = .ok env →
          totalRecords env ≠ 0 →
          r = some (totalRecords env, env.length)) := by
  induction servers with
  | nil =>
    refine ⟨none, rfl, ?_, ?_⟩
    · simp
    · intro before after server env h
      simp at h
  | cons sv servers ih =>
    obtain ⟨r, hr, hiff, hord⟩ := ih
    have hidx : index (r0 :: rs) 0 = .ok r0 := by simp [index]
    cases hIn : In (CreateAXFRQuery (dnsId sv) sv) r0 with
    | error err =>
      have hloop : axfrLoop (r0 :: rs) In dnsId (sv :: servers) = .ok r := by
        unfold axfrLoop
        simp only [hidx, hIn]
        exact hr
      refine ⟨r, hloop, ?_, ?_⟩
      · rw [hiff]
        constructor
        · rintro ⟨s, hs, env, h1, h2⟩
          exact ⟨s, List.mem_cons_of_mem _ hs, env, h1, h2⟩
        · rintro ⟨s, hs, env, h1, h2⟩
          rcases List.mem_cons.mp hs with rfl | hs
          · rw [hIn] at h1; cases h1
          · exact ⟨s, hs, env, h1, h2⟩
      · intro before after server env h hb h1 h2
        cases before with
        | nil =>
          simp only [List.nil_append, List.cons.injEq] at h
          rw [← h.1, hIn] at h1; cases h1
        | cons b before =>
          simp only [List.cons_append, List.cons.injEq] at h
          exact hord before after server env h.2
            (fun s hs => hb s (List.mem_cons_of_mem _ hs)) h1 h2
    | ok env0 =>
      by_cases h0 : totalRecords env0 = 0
      · have hloop : axfrLoop (r0 :: rs) In dnsId (sv :: servers) = .ok r := by
          unfold axfrLoop
          simp only [hidx, hIn, countEnvelopes_eq, Nat.zero_add, h0, ne_eq, not_true,
            if_false]
          exact hr
        refine ⟨r, hloop, ?_, ?_⟩
        · rw [hiff]
          constructor
          · rintro ⟨s, hs, env, h1, h2⟩
            exact ⟨s, List.mem_cons_of_mem _ hs, env, h1, h2⟩
          · rintro ⟨s, hs, env, h1, h2⟩
            rcases List.mem_cons.mp hs with rfl | hs
            · rw [hIn] at h1
              have := Except.ok.inj h1
              subst this
              exact absurd h0 h2
            · exact ⟨s, hs, env, h1, h2⟩
        · intro before after server env h hb h1 h2
          cases before with
          | nil =>
            simp only [List.nil_append, List.cons.injEq] at h
            rw [← h.1, hIn] at h1
            have := Except.ok.inj h1
            subst this
            exact absurd h0 h2
          | cons b before =>
            simp only [List.cons_append, List.cons.injEq] at h
            exact hord before after server env h.2
              (fun s hs => hb s (List.mem_cons_of_mem _ hs)) h1 h2
      · have hloop : axfrLoop (r0 :: rs) In dnsId (sv :: servers)
            = .ok (some (totalRecords env0, env0.length)) := by
          unfold axfrLoop
          simp only [hidx, hIn, countEnvelopes_eq, Nat.zero_add, ne_eq, h0, not_false_eq_true,
            if_true]
        refine ⟨_, hloop, ?_, ?_⟩
        · constructor
          · intro _
            exact ⟨sv, List.mem_cons_self _ _, env0, hIn, h0⟩
          · intro _
            simp
        · intro before after server env h hb h1 h2
          cases before with
          | nil =>
            simp only [List.nil_append, List.cons.injEq] at h
            rw [← h.1, hIn] at h1
            have := Except.ok.inj h1
            subst this
            rfl
          | cons b before =>
            simp only [List.cons_append, List.cons.injEq] at h
            have := hb b (List.mem_cons_self _ _) env0 (by rw [← h.1]; exact hIn)
            exact absurd this h0

/-- Zone-transfer short-circuit for a `run` that finds the shared `userResolvers` empty at
entry (the first target of a run without resolver file): for every list of authoritative
servers and every transfer behaviour `In`, `run` completes its first part, and it returns
without starting a worker or dispatching a candidate if and only if some server whose
transfer started without error has a nonzero total record count over all its envelopes.
Servers are tried in list order: when every server before `server` failed to start or carried
no record, the return reports the counts of `server`, which do not depend on per-envelope
errors.  Otherwise all `numWorker` workers are started, all candidates are dispatched and the
authoritative servers become `userResolvers`. -/
theorem run_zoneTransfer_short_circuit (subdomains authoritativeServers rs : List GoString)
    (r0 : GoString) (In : TransferIn) (dnsId : GoString → Nat) :
    ∃ out, run subdomains (r0 :: rs) [] authoritativeServers In dnsId = .ok out
      ∧ ((out.workersStarted = 0 ∧ out.dispatched = []) ↔
          ∃ server ∈ authoritativeServers, ∃ env,
            In (CreateAXFRQuery (dnsId server) server) r0 = .ok env ∧ totalRecords env ≠ 0)
      ∧ ((∃ record envelope, out = .zoneTransferred record envelope) ↔
          ∃ server ∈ authoritativeServers, ∃ env,
            In (CreateAXFRQuery (dnsId server) server) r0 = .ok env ∧ totalRecords env ≠ 0)
      ∧ (∀ (before after : List GoString) (server : GoString) (env : List Envelope),
          authoritativeServers = before ++ server :: after →
          (∀ s ∈ before, ∀ env', In (CreateAXFRQuery (dnsId s) s) r0 = .ok env' →
            totalRecords env' = 0) →
          In (CreateAXFRQuery (dnsId server) server) r0 = .ok env →
          totalRecords env ≠ 0 →
          out = .zoneTransferred (totalRecords env) env.length)
      ∧ ((¬ ∃ server ∈ authoritativeServers, ∃ env,
            In (CreateAXFRQuery (dnsId server) server) r0 = .ok env ∧ totalRecords env ≠ 0) →
          out = .bruteForce authoritativeServers numWorker subdomains) := by
  obtain ⟨r, hr, hiff, hord⟩ := axfrLoop_spec r0 rs In dnsId authoritativeServers
  cases r with
  | none =>
    have hnot : ¬ ∃ server ∈ authoritativeServers, ∃ env,
        In (CreateAXFRQuery (dnsId server) server) r0 = .ok env ∧ totalRecords env ≠ 0 :=
      fun h => (hiff.mpr h) rfl
    refine ⟨.bruteForce authoritativeServers numWorker subdomains, ?_, ?_, ?_, ?_, ?_⟩
    · simp [run, index, hr]
    · constructor
      · rintro ⟨hw, _⟩
        simp [RunOutcome.workersStarted, numWorker] at hw
      · intro h
        exact absurd h hnot
    · constructor
      · rintro ⟨record, envelope, h⟩
        cases h
      · intro h
        exact absurd h hnot
    · intro before after server env h hb h1 h2
      have := hord before after server env h hb h1 h2
      cases this
    · intro _
      rfl
  | some counts =>
    obtain ⟨record, envelope⟩ := counts
    have hyes : ∃ server ∈ authoritativeServers, ∃ env,
        In (CreateAXFRQuery (dnsId server) server) r0 = .ok env ∧ totalRecords env ≠ 0 :=
      hiff.mp (by simp)
    refine ⟨.zoneTransferred record envelope, ?_, ?_, ?_, ?_, ?_⟩
    · simp [run, index, hr]
    · constructor
      · intro _
        exact hyes
      · intro _
        exact ⟨rfl, rfl⟩
    · constructor
      · intro _
        exact hyes
      · intro _
        exact ⟨record, envelope, rfl⟩
    · intro before after server env h hb h1 h2
      have := hord before after server env h hb h1 h2
      simp only [Option.some.injEq, Prod.mk.injEq] at this
      rw [this.1, this.2]
    · intro h
      exact absurd hyes h

/-- An instance of the short-circuit: the first authoritative server refuses the transfer,
the second sends two envelopes with three records in all, one envelope carrying an error;
`run` returns after the transfer, with no worker started.  When both refuse, `run` goes on to
brute forcing. -/
theorem run_zoneTransfer_short_circuit_witness :
    run ["www".toList, "mail".toList] ["8.8.8.8:53".toList] []
        ["ns1.example.com.:53".toList, "ns2.example.com.:53".toList]
        (fun msg _ =>
          if msg.Question = [⟨"ns2.example.com.:53.".toList, TypeAXFR, ClassINET⟩] then
            .ok [⟨["example.com.\t300\tIN\tSOA\tns1.example.com.".toList,
                    "www.example.com.\t300\tIN\tA\t93.184.216.34".toList], none⟩,
                 ⟨["example.com.\t300\tIN\tSOA\tns1.example.com.".toList],
                    some "bad xfr rcode".toList⟩]
          else .error "transfer refused".toList)
        (fun _ => 7)
      = .ok (.zoneTransferred 3 2)
    ∧ run ["www".toList, "mail".toList] ["8.8.8.8:53".toList] []
        ["ns1.example.com.:53".toList, "ns2.example.com.:53".toList]
        (fun _ _ => .error "transfer refused".toList) (fun _ => 7)
      = .ok (.bruteForce ["ns1.example.com.:53".toList, "ns2.example.com.:53".toList] 8
          ["www".toList, "mail".toList]) := by
  constructor
  · obtain ⟨out, h, _, _, hfirst, _⟩ := run_zoneTransfer_short_circuit
      ["www".toList, "mail".toList]
      ["ns1.example.com.:53".toList, "ns2.example.com.:53".toList]
      [] "8.8.8.8:53".toList
      (fun msg _ =>
        if msg.Question = [⟨"ns2.example.com.:53.".toList, TypeAXFR, ClassINET⟩] then
          .ok [⟨["example.com.\t300\tIN\tSOA\tns1.example.com.".toList,
                  "www.example.com.\t300\tIN\tA\t93.184.216.34".toList], none⟩,
               ⟨["example.com.\t300\tIN\tSOA\tns1.example.com.".toList],
                  some "bad xfr rcode".toList⟩]
        else .error "transfer refused".toList)
      (fun _ => 7)
    have hout := hfirst ["ns1.example.com.:53".toList] [] "ns2.example.com.:53".toList
      [⟨["example.com.\t300\tIN\tSOA\tns1.example.com.".toList,
          "www.example.com.\t300\tIN\tA\t93.184.216.34".toList], none⟩,
       ⟨["example.com.\t300\tIN\tSOA\tns1.example.com.".toList],
          some "bad xfr rcode".toList⟩]
      rfl
      (by
        intro s hs env' henv
        rw [List.mem_singleton.mp hs] at henv
        change Except.error "transfer refused".toList = Except.ok env' at henv
        cases henv)
      rfl (by decide)
    rw [h, hout]
    rfl
  · obtain ⟨out, h, _, _, _, hbrute⟩ := run_zoneTransfer_short_circuit
      ["www".toList, "mail".toList]
      ["ns1.example.com.:53".toList, "ns2.example.com.:53".toList]
      [] "8.8.8.8:53".toList (fun _ _ => .error "transfer refused".toList) (fun _ => 7)
    rw [h, hbrute (by
      rintro ⟨_, _, env, h1, _⟩
      cases h1)]
    rfl

/-- Once `userResolvers` is not empty at entry, `run` never probes: it goes to brute forcing
whatever the transfers would return. -/
theorem run_skips_probe (subdomains defaultResolvers authoritativeServers us : List GoString)
    (u : GoString) (In : TransferIn) (dnsId : GoString → Nat) :
    run subdomains defaultResolvers (u :: us) authoritativeServers In dnsId
      = .ok (.bruteForce (u :: us) numWorker subdomains) := by
  simp [run]

/-- C7 (failing input): two targets `a.org` and `b.org`, no user-supplied resolver.  The
transfer from `b.org`'s authoritative server `ns1.b.org.:53` starts without error and carries
two records, so a `run` of `b.org` that finds `userResolvers` empty returns after the transfer.
But when `a.org`, whose transfer is refused, has run first, line 118 has left
`[ns1.a.org.:53]` in the shared `userResolvers`, and the `run` of `b.org` skips the probe,
starts the 8 workers and dispatches the candidate. -/
theorem run_second_target_skips_zone_transfer :
    run ["www".toList] ["8.8.8.8:53".toList] [] ["ns1.b.org.:53".toList]
        (fun msg _ =>
          if msg.Question = [⟨"ns1.b.org.:53.".toList, TypeAXFR, ClassINET⟩] then
            .ok [⟨["b.org.\t300\tIN\tSOA\tns1.b.org.".toList,
                    "www.b.org.\t300\tIN\tA\t93.184.216.34".toList], none⟩]
          else .error "transfer refused".toList)
        (fun _ => 7)
      = .ok (.zoneTransferred 2 1)
    ∧ runTargets ["www".toList] ["8.8.8.8:53".toList]
        (fun msg _ =>
          if msg.Question = [⟨"ns1.b.org.:53.".toList, TypeAXFR, ClassINET⟩] then
            .ok [⟨["b.org.\t300\tIN\tSOA\tns1.b.org.".toList,
                    "www.b.org.\t300\tIN\tA\t93.184.216.34".toList], none⟩]
          else .error "transfer refused".toList)
        (fun _ => 7) [] [["ns1.a.org.:53".toList], ["ns1.b.org.:53".toList]]
      = .ok [.bruteForce ["ns1.a.org.:53".toList] 8 ["www".toList],
             .bruteForce ["ns1.a.org.:53".toList] 8 ["www".toList]]
    ∧ (RunOutcome.bruteForce ["ns1.a.org.:53".toList] 8 ["www".toList]).workersStarted = 8
    ∧ (RunOutcome.bruteForce ["ns1.a.org.:53".toList] 8 ["www".toList]).dispatched
        = ["www".toList] :=
  ⟨rfl, rfl, rfl, rfl⟩

/-! ### Worker step -/

/-- Whenever a worker step completes, the query went to the entry of `defaultResolvers` at the
selected index, whatever `userResolvers` holds. -/
theorem subdomainWorkerStep_server (defaultResolvers userResolvers : List GoString)
    (SendDNSQuery : Transport) (dnsId : GoString → Nat) (id : Nat) (target : DNSTarget)
    (domain : GoString) (step : WorkerStep)
    (h : subdomainWorkerStep defaultResolvers userResolvers SendDNSQuery dnsId id target domain
      = .ok step) :
    index defaultResolvers (Int.tmod target.pos (defaultResolvers.length : Int))
      = .ok step.server := by
  unfold subdomainWorkerStep selectResolver at h
  by_cases hz : (defaultResolvers.length : Int) = 0
  · simp [hz] at h
  · simp only [hz, if_false] at h
    cases hu : index userResolvers (Int.tmod target.pos (defaultResolvers.length : Int)) with
    | error e => simp [hu] at h
    | ok u =>
      cases hd : index defaultResolvers (Int.tmod target.pos (defaultResolvers.length : Int)) with
      | error e => simp [hu, hd] at h
      | ok server =>
        simp only [hu, hd] at h
        split at h
        · rw [← Except.ok.inj h]
        · split at h
          · split at h <;> rw [← Except.ok.inj h]
          · rw [← Except.ok.inj h]

/-- A worker step that completes has incremented the cursor once (with wrap-around) and
emitted at most one raw answer. -/
theorem subdomainWorkerStep_pos (defaultResolvers userResolvers : List GoString)
    (SendDNSQuery : Transport) (dnsId : GoString → Nat) (id : Nat) (target : DNSTarget)
    (domain : GoString) (step : WorkerStep)
    (h : subdomainWorkerStep defaultResolvers userResolvers SendDNSQuery dnsId id target domain
      = .ok step) :
    step.target.pos = wrapInt (target.pos + 1) ∧ step.emitted.length ≤ 1 := by
  unfold subdomainWorkerStep selectResolver at h
  by_cases hz : (defaultResolvers.length : Int) = 0
  · simp [hz] at h
  · simp only [hz, if_false] at h
    cases hu : index userResolvers (Int.tmod target.pos (defaultResolvers.length : Int)) with
    | error e => simp [hu] at h
    | ok u =>
      cases hd : index defaultResolvers (Int.tmod target.pos (defaultResolvers.length : Int)) with
      | error e => simp [hu, hd] at h
      | ok server =>
        simp only [hu, hd] at h
        split at h
        · rw [← Except.ok.inj h]; simp
        · split at h
          · split at h <;> rw [← Except.ok.inj h] <;> simp
          · rw [← Except.ok.inj h]; simp

/-- A worker that completes its candidates has emitted at most one raw answer for each. -/
theorem subdomainWorker_results_le (defaultResolvers userResolvers : List GoString)
    (SendDNSQuery : Transport) (dnsId : GoString → Nat) (id : Nat) (domains : List GoString) :
    ∀ (target target' : DNSTarget) (results : List (GoString × GoString)),
      subdomainWorker defaultResolvers userResolvers SendDNSQuery dnsId id domains target
        = .ok (target', results) →
      results.length ≤ domains.length := by
  induction domains with
  | nil =>
    intro target target' results h
    simp only [subdomainWorker, Except.ok.injEq, Prod.mk.injEq] at h
    simp [← h.2]
  | cons domain domains ih =>
    intro target target' results h
    unfold subdomainWorker at h
    cases hs : subdomainWorkerStep defaultResolvers userResolvers SendDNSQuery dnsId id
        target domain with
    | error e => simp [hs] at h
    | ok step =>
      simp only [hs] at h
      cases hw : subdomainWorker defaultResolvers userResolvers SendDNSQuery dnsId id
          domains step.target with
      | error e => simp [hw] at h
      | ok pr =>
        obtain ⟨t, rs⟩ := pr
        simp only [hw, Except.ok.injEq, Prod.mk.injEq] at h
        have hstep := (subdomainWorkerStep_pos _ _ _ _ _ _ _ _ hs).2
        have h2 := ih step.target t rs hw
        rw [← h.2, List.length_append, List.length_cons]
        omega

/-- A worker step panics whenever the index selected over `defaultResolvers` is not an index of
`userResolvers`. -/
theorem subdomainWorkerStep_panics_of_short (defaultResolvers userResolvers : List GoString)
    (SendDNSQuery : Transport) (dnsId : GoString → Nat) (id : Nat) (target : DNSTarget)
    (domain : GoString) (hp : 0 ≤ target.pos) (hn : 1 ≤ defaultResolvers.length)
    (hshort : (userResolvers.length : Int) ≤ target.pos % (defaultResolvers.length : Int)) :
    subdomainWorkerStep defaultResolvers userResolvers SendDNSQuery dnsId id target domain
      = .error .indexOutOfRange := by
  have hi : 0 ≤ target.pos % (defaultResolvers.length : Int) :=
    Int.emod_nonneg _ (by omega)
  have hidx : index userResolvers (target.pos % (defaultResolvers.length : Int))
      = .error .indexOutOfRange := by
    unfold index
    rw [if_neg (by omega)]
    have hnone : userResolvers[(target.pos % (defaultResolvers.length : Int)).toNat]? = none :=
      List.getElem?_eq_none (by omega)
    rw [hnone]
  unfold subdomainWorkerStep
  simp only [selectResolver_of_nonneg target defaultResolvers.length hn hp, hidx]

/-- C5 (failing inputs): a worker that receives the single candidate `www` emits no raw answer
when the transport returns an error, and none when the response carries another transaction
identifier, so the receive loop of `run`, which waits for one answer, blocks; only a response
with the matching identifier makes the worker emit one raw answer. -/
theorem subdomainWorker_emits_nothing_on_failed_query :
    subdomainWorker ["8.8.8.8:53".toList] ["8.8.8.8:53".toList]
        (fun _ _ => .error "i/o timeout".toList) (fun _ => 7) 0 ["www".toList]
        ⟨"example.com".toList, "A".toList, 0, emptyMap⟩
      = .ok (⟨"example.com".toList, "A".toList, 1, emptyMap⟩, [])
    ∧ subdomainWorker ["8.8.8.8:53".toList] ["8.8.8.8:53".toList]
        (fun msg _ => .ok
          { msg with
            Id := 8
            Response := true
            Answer := ["www.example.com.\t300\tIN\tA\t93.184.216.34".toList] })
        (fun _ => 7) 0 ["www".toList] ⟨"example.com".toList, "A".toList, 0, emptyMap⟩
      = .ok (⟨"example.com".toList, "A".toList, 1, emptyMap⟩, [])
    ∧ receiveResults ["www".toList].length [] = none
    ∧ subdomainWorker ["8.8.8.8:53".toList] ["8.8.8.8:53".toList]
        (fun msg _ => .ok
          { msg with
            Response := true
            Answer := ["www.example.com.\t300\tIN\tA\t93.184.216.34".toList] })
        (fun _ => 7) 0 ["www".toList] ⟨"example.com".toList, "A".toList, 0, emptyMap⟩
      = .ok (⟨"example.com".toList, "A".toList, 1, emptyMap⟩,
          [("www".toList, "www.example.com.\t300\tIN\tA\t93.184.216.34|".toList)]) :=
  ⟨rfl, rfl, rfl, rfl⟩

/-- C9 (failing inputs): with no user-supplied resolver and no successful zone transfer, `run`
makes the authoritative server `ns1.example.com.:53` the shared `userResolvers`, yet the worker
sends its query to the default resolver `8.8.8.8:53`, which is not in that list; and with the
user-supplied resolver `1.1.1.1:53` the query goes to `8.8.8.8:53` as well. -/
theorem subdomainWorkerStep_queries_default_resolver :
    run ["www".toList] ["8.8.8.8:53".toList] [] ["ns1.example.com.:53".toList]
        (fun _ _ => .error "transfer refused".toList) (fun _ => 7)
      = .ok (.bruteForce ["ns1.example.com.:53".toList] 8 ["www".toList])
    ∧ subdomainWorkerStep ["8.8.8.8:53".toList] ["ns1.example.com.:53".toList]
        (fun _ _ => .error "i/o timeout".toList) (fun _ => 7) 0
        ⟨"example.com".toList, "A".toList, 0, emptyMap⟩ "www".toList
      = .ok ⟨⟨"example.com".toList, "A".toList, 1, emptyMap⟩, "8.8.8.8:53".toList, []⟩
    ∧ "8.8.8.8:53".toList ∉ ["ns1.example.com.:53".toList]
    ∧ run ["www".toList] ["8.8.8.8:53".toList] ["1.1.1.1:53".toList] []
        (fun _ _ => .error "transfer refused".toList) (fun _ => 7)
      = .ok (.bruteForce ["1.1.1.1:53".toList] 8 ["www".toList])
    ∧ subdomainWorkerStep ["8.8.8.8:53".toList] ["1.1.1.1:53".toList]
        (fun _ _ => .error "i/o timeout".toList) (fun _ => 7) 0
        ⟨"example.com".toList, "A".toList, 0, emptyMap⟩ "www".toList
      = .ok ⟨⟨"example.com".toList, "A".toList, 1, emptyMap⟩, "8.8.8.8:53".toList, []⟩ :=
  ⟨rfl, rfl, by decide, rfl, rfl⟩

/-- C10 (failing inputs): with two default resolvers and a single user (or authoritative)
resolver, the worker step at cursor `1` computes index `1` and panics on
`(*userResolvers)[1]`; with an empty authoritative list the very first step panics on
`(*userResolvers)[0]`. -/
theorem subdomainWorkerStep_panics_on_short_userResolvers :
    subdomainWorkerStep ["8.8.8.8:53".toList, "8.8.4.4:53".toList] ["1.1.1.1:53".toList]
        (fun _ _ => .error "i/o timeout".toList) (fun _ => 7) 0
        ⟨"example.com".toList, "A".toList, 1, emptyMap⟩ "www".toList
      = .error .indexOutOfRange
    ∧ run ["www".toList] ["8.8.8.8:53".toList] [] []
        (fun _ _ => .error "transfer refused".toList) (fun _ => 7)
      = .ok (.bruteForce [] 8 ["www".toList])
    ∧ subdomainWorkerStep ["8.8.8.8:53".toList] []
        (fun _ _ => .error "i/o timeout".toList) (fun _ => 7) 0
        ⟨"example.com".toList, "A".toList, 0, emptyMap⟩ "www".toList
      = .error .indexOutOfRange :=
  ⟨rfl, rfl, rfl⟩

end DnsBrute
